import Mathlib

/-!
Verification development for the wayshot capture pipeline.

Shallow embedding of the sources:
* `convert.rs`  — pixel-format converters (pure functions on byte lists),
* `dispatch.rs` — event handlers for the output registry and the capture
  session (modelled as step functions on explicit state records),
* `screencopy.rs` — frame-to-image conversion selection and the
  shared-memory file creation loop (modelled over an explicit trace of
  OS call results).

Bytes are `Nat` values `< 256`; `u32` values are `Nat` values `< 2^32`;
casts that may truncate are written with an explicit `% 2^w`.
-/

namespace Wayshot

/-! ## convert.rs -/

/-- The `chunks_exact(4)` iterator of Rust, specialised to what the
converters use: split a byte list into complete 4-byte chunks, dropping
any trailing remainder of fewer than 4 bytes. -/
def chunksExact4 : List Nat → List (Nat × Nat × Nat × Nat)
  | b0 :: b1 :: b2 :: b3 :: rest => (b0, b1, b2, b3) :: chunksExact4 rest
  | _ => []

/-- Embedding of `abgr8888_to_rgba8` (`convert.rs` lines 1–3): an
identity copy (`data.to_vec()`). -/
def abgr8888_to_rgba8 (data : List Nat) : List Nat :=
  data

/-- Embedding of `argb8888_to_rgba8` (`convert.rs` lines 5–11): per
4-byte chunk emit `[chunk[2], chunk[1], chunk[0], chunk[3]]`, then
flatten. -/
def argb8888_to_rgba8 (data : List Nat) : List Nat :=
  ((chunksExact4 data).map
    (fun c => match c with
      | (b0, b1, b2, b3) => [b2, b1, b0, b3])).flatten

/-- Embedding of `bgr888_to_rgb8` (`convert.rs` lines 13–15): an
identity copy. -/
def bgr888_to_rgb8 (data : List Nat) : List Nat :=
  data

/-- Embedding of `u32::from_le_bytes` on a 4-byte chunk: little-endian
packing. For bytes `< 256` the result is `< 2^32`. -/
def u32_from_le_bytes (c : Nat × Nat × Nat × Nat) : Nat :=
  c.1 + 256 * c.2.1 + 65536 * c.2.2.1 + 16777216 * c.2.2.2

/-- Embedding of `pixel_abgr2101010_to_rgba16` (`convert.rs` lines
17–35): interpret the chunk as a little-endian `u32`, mask-and-shift the
2-bit alpha and the three 10-bit channels, widen by left shift and cast
each to `u16` (the `% 65536`); output order `[a, r, g, b]`. -/
def pixel_abgr2101010_to_rgba16 (chunk : Nat × Nat × Nat × Nat) : List Nat :=
  let pixel := u32_from_le_bytes chunk
  let a2 := (pixel &&& 0xC0000000) >>> 30
  let b10 := (pixel &&& 0x3FF00000) >>> 20
  let g10 := (pixel &&& 0x000FFC00) >>> 10
  let r10 := pixel &&& 0x000003FF
  [(a2 <<< 14) % 65536, (r10 <<< 6) % 65536, (g10 <<< 6) % 65536, (b10 <<< 6) % 65536]

/-- Embedding of `abgr2101010_to_rgba16` (`convert.rs` lines 37–45):
per-chunk conversion of every complete 4-byte chunk, flattened. -/
def abgr2101010_to_rgba16 (data : List Nat) : List Nat :=
  ((chunksExact4 data).map pixel_abgr2101010_to_rgba16).flatten

/-! ## Data model (`region.rs`, `output.rs`)

Modelled from the spec: the files `region.rs` and `output.rs` only
declare plain data records consumed by the handlers in `dispatch.rs`;
per the data model of the spec an Output carries identifier, name,
description, physical size, logical region (position + size) and
transform, with zero/empty defaults before events arrive. Object
identity of a `WlOutput` proxy is modelled as a `Nat`. -/

structure Size where
  width : Nat
  height : Nat
  deriving DecidableEq, Repr

structure Position where
  x : Int
  y : Int
  deriving DecidableEq, Repr

structure Region where
  position : Position
  size : Size
  deriving DecidableEq, Repr

structure LogicalRegion where
  inner : Region
  deriving DecidableEq, Repr

/-- Modelled from the spec: zero defaults of the data records
(`Size::default()`, `LogicalRegion::default()`). -/
def Size.zero : Size := ⟨0, 0⟩

def LogicalRegion.zero : LogicalRegion := ⟨⟨⟨0, 0⟩, ⟨0, 0⟩⟩⟩

/-- The `wl_output::Transform` protocol enum. -/
inductive Transform where
  | Normal | Rot90 | Rot180 | Rot270
  | Flipped | Flipped90 | Flipped180 | Flipped270
  deriving DecidableEq, Repr

/-- Modelled from the spec: the `OutputInfo` record of `output.rs`, as
constructed in `dispatch.rs` lines 62–69. -/
structure OutputInfo where
  wl_output : Nat
  name : String
  description : String
  transform : Transform
  physical_size : Size
  logical_region : LogicalRegion
  deriving DecidableEq, Repr

/-- Embedding of `OutputCaptureState` (`dispatch.rs` lines 34–37). -/
structure OutputCaptureState where
  outputs : List OutputInfo
  deriving DecidableEq, Repr

/-! ## dispatch.rs: `Dispatch<WlRegistry, ()> for OutputCaptureState` -/

/-- The `wl_registry` events: `Global { name, interface, version }`,
`GlobalRemove`, and a catch-all for future events. -/
inductive RegistryEvent where
  | global (name : Nat) (interface : String) (version : Nat)
  | globalRemove (name : Nat)
  | other
  deriving DecidableEq, Repr

/-- The fresh `OutputInfo` pushed at bind time (`dispatch.rs` lines
62–69); the identity of the bound proxy is modelled by the unique
registry name. -/
def freshOutputInfo (name : Nat) : OutputInfo :=
  { wl_output := name
    name := ""
    description := ""
    transform := Transform.Normal
    physical_size := Size.zero
    logical_region := LogicalRegion.zero }

/-- Embedding of the registry handler (`dispatch.rs` lines 39–76): a
`Global` advertising `wl_output` at version ≥ 4 is bound and a default
`OutputInfo` pushed; a lower version is logged and skipped; everything
else is ignored. -/
def registryEvent (s : OutputCaptureState) (e : RegistryEvent) : OutputCaptureState :=
  match e with
  | RegistryEvent.global name interface version =>
    if interface = "wl_output" then
      if version ≥ 4 then
        { s with outputs := s.outputs ++ [freshOutputInfo name] }
      else
        s
    else
      s
  | RegistryEvent.globalRemove _ => s
  | RegistryEvent.other => s

/-! ## dispatch.rs: `Dispatch<WlOutput, ()> for OutputCaptureState` -/

/-- The `WEnum<T>` wrapper of wayland-client: a recognised enum value or
an unknown raw integer. -/
inductive WEnum (α : Type) where
  | value (v : α)
  | unknown (raw : Nat)
  deriving DecidableEq, Repr

/-- The `wl_output` events handled in `dispatch.rs` lines 96–118.
`Mode` carries `i32` width/height; `Geometry` carries a `WEnum`
transform (its other fields are ignored by the handler). -/
inductive WlOutputEvent where
  | name (n : String)
  | description (d : String)
  | mode (width height : Int)
  | geometry (transform : WEnum Transform)
  | scale
  | done
  | other
  deriving DecidableEq, Repr

/-- The Rust `i32 as u32` cast: a reinterpretation in two-complement form,
i.e. the value modulo `2^32` as a `Nat`. -/
def u32_of_i32 (x : Int) : Nat :=
  (x % (2 ^ 32 : Int)).toNat

/-- The per-output mutation of the `WlOutput` handler (`dispatch.rs`
lines 96–118). A `Geometry` event whose transform is not a recognised
enum value falls through to the catch-all arm and changes nothing. -/
def applyWlOutputEvent (o : OutputInfo) (e : WlOutputEvent) : OutputInfo :=
  match e with
  | WlOutputEvent.name n => { o with name := n }
  | WlOutputEvent.description d => { o with description := d }
  | WlOutputEvent.mode w h =>
    { o with physical_size := { width := u32_of_i32 w, height := u32_of_i32 h } }
  | WlOutputEvent.geometry (WEnum.value t) => { o with transform := t }
  | WlOutputEvent.geometry (WEnum.unknown _) => o
  | WlOutputEvent.scale => o
  | WlOutputEvent.done => o
  | WlOutputEvent.other => o

/-- `iter_mut().find(|x| x.wl_output == *wl_output)` followed by the
mutation: update the first output whose identity matches, leave the
rest alone. -/
def updateFirstMatching (oid : Nat) (e : WlOutputEvent) : List OutputInfo → List OutputInfo
  | [] => []
  | o :: rest =>
    if o.wl_output = oid then
      applyWlOutputEvent o e :: rest
    else
      o :: updateFirstMatching oid e rest

/-- Embedding of the `WlOutput` handler (`dispatch.rs` lines 78–120):
if no registered output matches the object of the event, the handler logs
and returns with the state untouched. -/
def wlOutputEvent (s : OutputCaptureState) (oid : Nat) (e : WlOutputEvent) :
    OutputCaptureState :=
  { s with outputs := updateFirstMatching oid e s.outputs }

/-! ## dispatch.rs: `Dispatch<ZxdgOutputV1, usize> for OutputCaptureState` -/

/-- The `zxdg_output_v1` events handled in `dispatch.rs` lines 143–157. -/
inductive ZxdgOutputEvent where
  | logicalPosition (x y : Int)
  | logicalSize (width height : Int)
  | done
  | name
  | description
  | other
  deriving DecidableEq, Repr

/-- The per-output mutation of the `ZxdgOutputV1` handler
(`dispatch.rs` lines 143–157). -/
def applyZxdgOutputEvent (o : OutputInfo) (e : ZxdgOutputEvent) : OutputInfo :=
  match e with
  | ZxdgOutputEvent.logicalPosition x y =>
    { o with logical_region :=
      { inner := { o.logical_region.inner with position := { x := x, y := y } } } }
  | ZxdgOutputEvent.logicalSize w h =>
    { o with logical_region :=
      { inner := { o.logical_region.inner with
          size := { width := u32_of_i32 w, height := u32_of_i32 h } } } }
  | ZxdgOutputEvent.done => o
  | ZxdgOutputEvent.name => o
  | ZxdgOutputEvent.description => o
  | ZxdgOutputEvent.other => o

/-- Embedding of the `ZxdgOutputV1` handler (`dispatch.rs` lines
124–159): the event data is a correlation index into `outputs`
(`state.outputs.get_mut(*index)`); an out-of-range index is logged and
the handler returns with the state untouched. -/
def zxdgOutputEvent (s : OutputCaptureState) (index : Nat) (e : ZxdgOutputEvent) :
    OutputCaptureState :=
  match s.outputs.get? index with
  | none => s
  | some o => { s with outputs := s.outputs.set index (applyZxdgOutputEvent o e) }

/-! ## screencopy.rs: formats and frame conversion -/

/-- The `wl_shm::Format` protocol enum (external to the repository):
the seven tags the conversion recognises, plus a catch-all constructor
for every other tag of the protocol enum. -/
inductive Format where
  | Bgr888
  | Xbgr8888
  | Abgr8888
  | Xrgb8888
  | Argb8888
  | Xbgr2101010
  | Abgr2101010
  | other (code : Nat)
  deriving DecidableEq, Repr

/-- Embedding of `FrameFormat` (`screencopy.rs` lines 45–53). -/
structure FrameFormat where
  format : Format
  size : Size
  stride : Nat
  deriving DecidableEq, Repr

/-! ## dispatch.rs: `Dispatch<ZwlrScreencopyFrameV1, ()> for CaptureFrameState` -/

/-- Embedding of `FrameState` (`dispatch.rs` lines 162–168). -/
inductive FrameState where
  | Failed
  | Finished
  deriving DecidableEq, Repr

/-- Embedding of `CaptureFrameState` (`dispatch.rs` lines 170–174);
the `AtomicBool` is a plain `Bool` (the dispatch loop is
single-threaded). -/
structure CaptureFrameState where
  formats : List FrameFormat
  state : Option FrameState
  buffer_done : Bool
  deriving DecidableEq, Repr

/-- The `zwlr_screencopy_frame_v1` events handled in `dispatch.rs`
lines 186–217; `flags` and any future event fall into the catch-all
arm. -/
inductive ScreencopyEvent where
  | buffer (format : WEnum Format) (width height stride : Nat)
  | ready
  | failed
  | damage
  | linuxDmabuf
  | bufferDone
  | other
  deriving DecidableEq, Repr

/-- Embedding of the screencopy-frame handler (`dispatch.rs` lines
176–219): a `Buffer` event with a recognised format pushes a candidate
`FrameFormat`; `Ready` and `Failed` overwrite the state via
`Option::replace`; `BufferDone` sets the flag; everything else is
ignored. -/
def captureFrameEvent (s : CaptureFrameState) (e : ScreencopyEvent) : CaptureFrameState :=
  match e with
  | ScreencopyEvent.buffer fmt w h stride =>
    match fmt with
    | WEnum.value f =>
      { s with formats :=
          s.formats ++ [{ format := f, size := { width := w, height := h }, stride := stride }] }
    | WEnum.unknown _ => s
  | ScreencopyEvent.ready => { s with state := some FrameState.Finished }
  | ScreencopyEvent.failed => { s with state := some FrameState.Failed }
  | ScreencopyEvent.damage => s
  | ScreencopyEvent.linuxDmabuf => s
  | ScreencopyEvent.bufferDone => { s with buffer_done := true }
  | ScreencopyEvent.other => s

/-- Run the screencopy-frame handler over a whole event sequence. -/
def runCaptureFrame (s : CaptureFrameState) (es : List ScreencopyEvent) :
    CaptureFrameState :=
  es.foldl captureFrameEvent s

/-- The capture session before any event: no candidates, `state: None`,
`buffer_done: false`. -/
def initialCaptureFrameState : CaptureFrameState :=
  { formats := [], state := none, buffer_done := false }

/-! ## screencopy.rs: `TryFrom<&FrameCopy> for DynamicImage` -/

/-- The error variants this conversion can produce (`Error` in
`error.rs`, referenced from `screencopy.rs`). -/
inductive ConvError where
  | BufferTooSmall
  | NoSupportedBufferFormat
  deriving DecidableEq, Repr

/-- Embedding of `FrameCopy` (`screencopy.rs` lines 64–72); the mapped
memory is its byte contents. -/
structure FrameCopy where
  frame_format : FrameFormat
  frame_mmap : List Nat
  transform : Transform
  logical_region : LogicalRegion
  physical_size : Size
  deriving DecidableEq, Repr

/-- The result image: pixel container tag plus dimensions and the
flattened channel buffer (`DynamicImage::ImageRgb8` / `ImageRgba8` /
`ImageRgba16`). -/
inductive DynamicImage where
  | rgb8 (width height : Nat) (buf : List Nat)
  | rgba8 (width height : Nat) (buf : List Nat)
  | rgba16 (width height : Nat) (buf : List Nat)
  deriving DecidableEq, Repr

/-- `ImageBuffer::from_vec` of the external `image` crate: succeeds iff
the buffer holds at least `width * height * channels` samples. -/
def imageBufferFromVec (channels width height : Nat) (buf : List Nat) :
    Option (List Nat) :=
  if width * height * channels ≤ buf.length then some buf else none

/-- Embedding of `TryFrom<&FrameCopy> for DynamicImage`
(`screencopy.rs` lines 74–114): select the converter from the format
tag, build the image buffer, and reject every unrecognised tag with
`NoSupportedBufferFormat`. -/
def frameCopyToImage (fc : FrameCopy) : Except ConvError DynamicImage :=
  let width := fc.frame_format.size.width
  let height := fc.frame_format.size.height
  let data := fc.frame_mmap
  match fc.frame_format.format with
  | Format.Bgr888 =>
    match imageBufferFromVec 3 width height (bgr888_to_rgb8 data) with
    | some buf => Except.ok (DynamicImage.rgb8 width height buf)
    | none => Except.error ConvError.BufferTooSmall
  | Format.Xbgr8888 =>
    match imageBufferFromVec 4 width height (abgr8888_to_rgba8 data) with
    | some buf => Except.ok (DynamicImage.rgba8 width height buf)
    | none => Except.error ConvError.BufferTooSmall
  | Format.Abgr8888 =>
    match imageBufferFromVec 4 width height (abgr8888_to_rgba8 data) with
    | some buf => Except.ok (DynamicImage.rgba8 width height buf)
    | none => Except.error ConvError.BufferTooSmall
  | Format.Xrgb8888 =>
    match imageBufferFromVec 4 width height (argb8888_to_rgba8 data) with
    | some buf => Except.ok (DynamicImage.rgba8 width height buf)
    | none => Except.error ConvError.BufferTooSmall
  | Format.Argb8888 =>
    match imageBufferFromVec 4 width height (argb8888_to_rgba8 data) with
    | some buf => Except.ok (DynamicImage.rgba8 width height buf)
    | none => Except.error ConvError.BufferTooSmall
  | Format.Xbgr2101010 =>
    match imageBufferFromVec 4 width height (abgr2101010_to_rgba16 data) with
    | some buf => Except.ok (DynamicImage.rgba16 width height buf)
    | none => Except.error ConvError.BufferTooSmall
  | Format.Abgr2101010 =>
    match imageBufferFromVec 4 width height (abgr2101010_to_rgba16 data) with
    | some buf => Except.ok (DynamicImage.rgba16 width height buf)
    | none => Except.error ConvError.BufferTooSmall
  | Format.other _ => Except.error ConvError.NoSupportedBufferFormat

/-- Whether a format tag is one the conversion recognises. -/
def Format.isRecognized : Format → Bool
  | Format.other _ => false
  | _ => true

/-! ## screencopy.rs: `create_shm_fd`

The OS calls are modelled by an explicit trace of their results, one
entry per attempted call; the loops of `create_shm_fd` are recursion on
that trace. An exhausted trace leaves the loop still running
(`pending`), which is how the unboundedness of the retry loops is
expressed. -/

/-- Outcome of `create_shm_fd` as observed on a finite trace of OS
results. -/
inductive ShmOutcome where
  | ok (fd : Nat)
  | osError (errno : Nat)
  | pending
  deriving DecidableEq, Repr

/-- Result of one `memfd_create` call: success, `EINTR`, `ENOSYS`, or
another errno. -/
inductive MemfdRes where
  | ok (fd : Nat)
  | eintr
  | enosys
  | fail (errno : Nat)
  deriving DecidableEq, Repr

/-- Result of the `close` call in the unlink-failure path. -/
inductive CloseRes where
  | ok
  | fail (errno : Nat)
  deriving DecidableEq, Repr

/-- Result of the `shm_unlink` call after a successful `shm_open`; a
failing unlink is followed by a `close` whose result is nested here. -/
inductive UnlinkRes where
  | ok
  | fail (errno : Nat) (c : CloseRes)
  deriving DecidableEq, Repr

/-- Result of one `shm_open` call: success (with the follow-up unlink
result), `EEXIST`, `EINTR`, or another errno. -/
inductive OpenRes where
  | ok (fd : Nat) (u : UnlinkRes)
  | eexist
  | eintr
  | fail (errno : Nat)
  deriving DecidableEq, Repr

/-- Result of the memfd phase: a final outcome, or the `ENOSYS` break
into the `shm_open` fallback. -/
inductive MemfdPhase where
  | ret (o : ShmOutcome)
  | fallback
  deriving DecidableEq, Repr

/-- Embedding of the memfd loop of `create_shm_fd` (`screencopy.rs`
lines 132–154): success returns the descriptor (sealing errors are
ignored), `EINTR` retries, `ENOSYS` breaks to the fallback, any other
errno is returned as the OS error. -/
def memfdLoop : List MemfdRes → MemfdPhase
  | [] => MemfdPhase.ret ShmOutcome.pending
  | MemfdRes.ok fd :: _ => MemfdPhase.ret (ShmOutcome.ok fd)
  | MemfdRes.eintr :: rest => memfdLoop rest
  | MemfdRes.enosys :: _ => MemfdPhase.fallback
  | MemfdRes.fail e :: _ => MemfdPhase.ret (ShmOutcome.osError e)

/-- Embedding of the `shm_open` fallback loop of `create_shm_fd`
(`screencopy.rs` lines 157–189): success unlinks the name and returns
the descriptor (a failed unlink closes the descriptor and returns an
OS error), `EEXIST` regenerates the handle and retries, `EINTR`
retries, any other errno is returned as the OS error. -/
def shmOpenLoop : List OpenRes → ShmOutcome
  | [] => ShmOutcome.pending
  | OpenRes.ok fd u :: _ =>
    (match u with
     | UnlinkRes.ok => ShmOutcome.ok fd
     | UnlinkRes.fail e CloseRes.ok => ShmOutcome.osError e
     | UnlinkRes.fail _ (CloseRes.fail e2) => ShmOutcome.osError e2)
  | OpenRes.eexist :: rest => shmOpenLoop rest
  | OpenRes.eintr :: rest => shmOpenLoop rest
  | OpenRes.fail e :: _ => ShmOutcome.osError e

/-- Embedding of `create_shm_fd` (`screencopy.rs` lines 129–189): run
the memfd loop; on `ENOSYS` fall back to the `shm_open` loop. -/
def create_shm_fd (mt : List MemfdRes) (st : List OpenRes) : ShmOutcome :=
  match memfdLoop mt with
  | MemfdPhase.ret o => o
  | MemfdPhase.fallback => shmOpenLoop st

/-- The sequence of name-generation indices the fallback loop uses, one
per `shm_open` attempt, starting from index `i`: `get_mem_file_handle`
is called again exactly on an `EEXIST` result (`screencopy.rs` lines
180–184), so the index advances there and only there. -/
def shmHandleIndices : Nat → List OpenRes → List Nat
  | _, [] => []
  | i, r :: rest =>
    i :: (match r with
          | OpenRes.eexist => shmHandleIndices (i + 1) rest
          | OpenRes.eintr => shmHandleIndices i rest
          | _ => [])

/-- Whether a screencopy-frame event is terminal for the capture state
(`Ready` or `Failed`). -/
def ScreencopyEvent.isTerminal : ScreencopyEvent → Bool
  | ScreencopyEvent.ready => true
  | ScreencopyEvent.failed => true
  | _ => false

/-- Number of terminal events in a sequence. -/
def terminalCount (es : List ScreencopyEvent) : Nat :=
  (es.filter ScreencopyEvent.isTerminal).length

/-- Run the registry handler over a whole event sequence. -/
def runRegistry (s : OutputCaptureState) (es : List RegistryEvent) : OutputCaptureState :=
  es.foldl registryEvent s

/-! ## Sanity checks on concrete inputs -/

example : argb8888_to_rgba8 [1, 2, 3, 4] = [3, 2, 1, 4] := by decide
example : argb8888_to_rgba8 [1, 2, 3, 4, 5] = [3, 2, 1, 4] := by decide
example : abgr8888_to_rgba8 [1, 2, 3, 4] = [1, 2, 3, 4] := by decide
example : abgr2101010_to_rgba16 [0xFF, 0x03, 0, 0xC0] = [3 <<< 14, 1023 <<< 6, 0, 0] := by decide

/-! ## Helper lemmas -/

theorem chunksExact4_cons4 (b0 b1 b2 b3 : Nat) (rest : List Nat) :
    chunksExact4 (b0 :: b1 :: b2 :: b3 :: rest) = (b0, b1, b2, b3) :: chunksExact4 rest := by
  simp [chunksExact4]

theorem argb8888_cons4 (b0 b1 b2 b3 : Nat) (rest : List Nat) :
    argb8888_to_rgba8 (b0 :: b1 :: b2 :: b3 :: rest) =
      b2 :: b1 :: b0 :: b3 :: argb8888_to_rgba8 rest := by
  simp [argb8888_to_rgba8, chunksExact4_cons4]

theorem abgr2101010_cons4 (b0 b1 b2 b3 : Nat) (rest : List Nat) :
    abgr2101010_to_rgba16 (b0 :: b1 :: b2 :: b3 :: rest) =
      pixel_abgr2101010_to_rgba16 (b0, b1, b2, b3) ++ abgr2101010_to_rgba16 rest := by
  simp [abgr2101010_to_rgba16, chunksExact4_cons4]

theorem get?_cons4 {α : Type} (a b c d : α) (l : List α) (n : Nat) :
    (a :: b :: c :: d :: l).get? (n + 4) = l.get? n := by
  have h4 : n + 4 = n + 1 + 1 + 1 + 1 := by omega
  rw [h4]
  simp [List.get?_cons_succ]

theorem take_cons4 {α : Type} (a b c d : α) (l : List α) (n : Nat) :
    (a :: b :: c :: d :: l).take (n + 4) = a :: b :: c :: d :: l.take n := by
  have h4 : n + 4 = n + 1 + 1 + 1 + 1 := by omega
  rw [h4]
  simp [List.take_succ_cons]

theorem not4cons_length : ∀ {data : List Nat},
    (∀ (b0 b1 b2 b3 : Nat) (rest : List Nat), data = b0 :: b1 :: b2 :: b3 :: rest → False) →
    data.length < 4
  | [], _ => by simp
  | [_], _ => by simp
  | [_, _], _ => by simp
  | [_, _, _], _ => by simp
  | _ :: _ :: _ :: _ :: _, h => ((h _ _ _ _ _ rfl).elim)

theorem chunksExact4_nil : ∀ {data : List Nat}, data.length < 4 → chunksExact4 data = []
  | [], _ => rfl
  | [_], _ => rfl
  | [_, _], _ => rfl
  | [_, _, _], _ => rfl
  | _ :: _ :: _ :: _ :: _, h => absurd h (by simp only [List.length_cons]; omega)

theorem argb8888_get (data : List Nat) :
    ∀ i : Nat, 4 * i + 3 < data.length →
      (argb8888_to_rgba8 data).get? (4 * i) = data.get? (4 * i + 2) ∧
      (argb8888_to_rgba8 data).get? (4 * i + 1) = data.get? (4 * i + 1) ∧
      (argb8888_to_rgba8 data).get? (4 * i + 2) = data.get? (4 * i) ∧
      (argb8888_to_rgba8 data).get? (4 * i + 3) = data.get? (4 * i + 3) := by
  induction data using chunksExact4.induct with
  | case1 b0 b1 b2 b3 rest ih =>
    intro i hi
    cases i with
    | zero =>
      rw [argb8888_cons4]
      norm_num
    | succ i =>
      rw [argb8888_cons4]
      have hlen : 4 * i + 3 < rest.length := by
        simp only [List.length_cons] at hi
        omega
      obtain ⟨e1, e2, e3, e4⟩ := ih i hlen
      have k0 : 4 * (i + 1) = 4 * i + 4 := by omega
      have k1 : 4 * (i + 1) + 1 = 4 * i + 1 + 4 := by omega
      have k2 : 4 * (i + 1) + 2 = 4 * i + 2 + 4 := by omega
      have k3 : 4 * (i + 1) + 3 = 4 * i + 3 + 4 := by omega
      refine ⟨?_, ?_, ?_, ?_⟩
      · rw [k2, k0, get?_cons4, get?_cons4]; exact e1
      · rw [k1, get?_cons4, get?_cons4]; exact e2
      · rw [k2, k0, get?_cons4, get?_cons4]; exact e3
      · rw [k3, get?_cons4, get?_cons4]; exact e4
  | case2 data h =>
    intro i hi
    have := not4cons_length h
    omega

theorem chunksExact4_length (data : List Nat) :
    (chunksExact4 data).length = data.length / 4 := by
  induction data using chunksExact4.induct with
  | case1 b0 b1 b2 b3 rest ih =>
    simp only [chunksExact4_cons4, List.length_cons, ih]
    omega
  | case2 data h =>
    have hl := not4cons_length h
    rw [chunksExact4_nil hl]
    simp only [List.length_nil]
    omega

theorem chunksExact4_take (data : List Nat) :
    chunksExact4 (data.take (4 * (data.length / 4))) = chunksExact4 data := by
  induction data using chunksExact4.induct with
  | case1 b0 b1 b2 b3 rest ih =>
    have h2 : 4 * ((b0 :: b1 :: b2 :: b3 :: rest).length / 4) =
        4 * (rest.length / 4) + 4 := by
      simp only [List.length_cons]
      omega
    rw [h2, take_cons4, chunksExact4_cons4, chunksExact4_cons4, ih]
  | case2 data h =>
    have hl := not4cons_length h
    have h0 : 4 * (data.length / 4) = 0 := by omega
    rw [h0, List.take_zero, chunksExact4_nil hl]
    rfl

theorem argb8888_take (data : List Nat) :
    argb8888_to_rgba8 (data.take (4 * (data.length / 4))) = argb8888_to_rgba8 data := by
  unfold argb8888_to_rgba8
  rw [chunksExact4_take]

theorem abgr2101010_take (data : List Nat) :
    abgr2101010_to_rgba16 (data.take (4 * (data.length / 4))) = abgr2101010_to_rgba16 data := by
  unfold abgr2101010_to_rgba16
  rw [chunksExact4_take]

theorem argb8888_length (data : List Nat) :
    (argb8888_to_rgba8 data).length = 4 * (data.length / 4) := by
  induction data using chunksExact4.induct with
  | case1 b0 b1 b2 b3 rest ih =>
    rw [argb8888_cons4]
    simp only [List.length_cons, ih]
    omega
  | case2 data h =>
    have hl := not4cons_length h
    unfold argb8888_to_rgba8
    rw [chunksExact4_nil hl]
    simp only [List.map_nil, List.flatten_nil, List.length_nil]
    omega

theorem abgr2101010_length (data : List Nat) :
    (abgr2101010_to_rgba16 data).length = 4 * (data.length / 4) := by
  induction data using chunksExact4.induct with
  | case1 b0 b1 b2 b3 rest ih =>
    rw [abgr2101010_cons4]
    simp only [List.length_append, ih, pixel_abgr2101010_to_rgba16, List.length_cons,
      List.length_nil]
    omega
  | case2 data h =>
    have hl := not4cons_length h
    unfold abgr2101010_to_rgba16
    rw [chunksExact4_nil hl]
    simp only [List.map_nil, List.flatten_nil, List.length_nil]
    omega

/-! ## Claim C1 -/

/-- Claim C1, counterexample: the ABGR8-to-RGBA8 conversion of the code
(`abgr8888_to_rgba8`) is an identity copy; on the 4-byte pixel
`[1, 2, 3, 4]` it returns `[1, 2, 3, 4]`, not the byte-0/byte-2 swap
`[3, 2, 1, 4]` the claim asserts. -/
theorem C1_counterexample :
    abgr8888_to_rgba8 [1, 2, 3, 4] = [1, 2, 3, 4] ∧
    abgr8888_to_rgba8 [1, 2, 3, 4] ≠ [3, 2, 1, 4] := by
  constructor
  · rfl
  · decide

/-- Claim C1 (amended): the ARGB8-to-RGBA8 conversion
(`argb8888_to_rgba8`), applied to any byte buffer, swaps byte positions
0 and 2 of every complete 4-byte pixel and leaves byte positions 1 and
3 unchanged (output pixel = `[in[2], in[1], in[0], in[3]]`), while the
ABGR8-to-RGBA8 conversion (`abgr8888_to_rgba8`) is the identity copy. -/
theorem C1_theorem (data : List Nat) (i : Nat) (h : 4 * i + 3 < data.length) :
    ((argb8888_to_rgba8 data).get? (4 * i) = data.get? (4 * i + 2) ∧
     (argb8888_to_rgba8 data).get? (4 * i + 1) = data.get? (4 * i + 1) ∧
     (argb8888_to_rgba8 data).get? (4 * i + 2) = data.get? (4 * i) ∧
     (argb8888_to_rgba8 data).get? (4 * i + 3) = data.get? (4 * i + 3)) ∧
    abgr8888_to_rgba8 data = data :=
  ⟨argb8888_get data i h, rfl⟩

/-- Claim C1, witness: the amended claim evaluated on the concrete
8-byte buffer `[10, 20, 30, 40, 50, 60, 70, 80]` at pixel index 1. -/
theorem C1_witness :
    ((argb8888_to_rgba8 [10, 20, 30, 40, 50, 60, 70, 80]).get? (4 * 1) =
        ([10, 20, 30, 40, 50, 60, 70, 80] : List Nat).get? (4 * 1 + 2) ∧
     (argb8888_to_rgba8 [10, 20, 30, 40, 50, 60, 70, 80]).get? (4 * 1 + 1) =
        ([10, 20, 30, 40, 50, 60, 70, 80] : List Nat).get? (4 * 1 + 1) ∧
     (argb8888_to_rgba8 [10, 20, 30, 40, 50, 60, 70, 80]).get? (4 * 1 + 2) =
        ([10, 20, 30, 40, 50, 60, 70, 80] : List Nat).get? (4 * 1) ∧
     (argb8888_to_rgba8 [10, 20, 30, 40, 50, 60, 70, 80]).get? (4 * 1 + 3) =
        ([10, 20, 30, 40, 50, 60, 70, 80] : List Nat).get? (4 * 1 + 3)) ∧
    abgr8888_to_rgba8 [10, 20, 30, 40, 50, 60, 70, 80] =
      [10, 20, 30, 40, 50, 60, 70, 80] :=
  C1_theorem [10, 20, 30, 40, 50, 60, 70, 80] 1 (by decide)

/-! ## Claim C3 -/

/-- Claim C3, counterexample: no converter rejects a buffer whose
length is not a multiple of 4. On the 5-byte input `[1, 2, 3, 4, 5]`,
`argb8888_to_rgba8` produces the normal result `[3, 2, 1, 4]`
(silently dropping the fifth byte), and `abgr8888_to_rgba8` produces
the normal result `[1, 2, 3, 4, 5]` (passing the partial pixel byte
through). -/
theorem C3_counterexample :
    argb8888_to_rgba8 [1, 2, 3, 4, 5] = [3, 2, 1, 4] ∧
    abgr8888_to_rgba8 [1, 2, 3, 4, 5] = [1, 2, 3, 4, 5] := by
  constructor
  · decide
  · rfl

/-- Claim C3 (amended): no pixel-format converter rejects an input
whose length is not a multiple of 4 — every converter returns a normal
result on any byte sequence. The chunked converters
(`argb8888_to_rgba8`, `abgr2101010_to_rgba16`) derive their output
only from the complete 4-byte pixels (the first `4 * (len / 4)` input
bytes) and emit exactly 4 channels per complete pixel, so they never
emit a partial pixel; the identity converters (`abgr8888_to_rgba8`,
`bgr888_to_rgb8`) return every input byte unchanged, a trailing
partial pixel included. -/
theorem C3_theorem (data : List Nat) :
    argb8888_to_rgba8 data = argb8888_to_rgba8 (data.take (4 * (data.length / 4))) ∧
    (argb8888_to_rgba8 data).length = 4 * (data.length / 4) ∧
    abgr2101010_to_rgba16 data = abgr2101010_to_rgba16 (data.take (4 * (data.length / 4))) ∧
    (abgr2101010_to_rgba16 data).length = 4 * (data.length / 4) ∧
    abgr8888_to_rgba8 data = data ∧
    bgr888_to_rgb8 data = data :=
  ⟨(argb8888_take data).symm, argb8888_length data,
   (abgr2101010_take data).symm, abgr2101010_length data, rfl, rfl⟩

/-! ## Claim C6 -/

/-- Claim C6: converting a captured frame whose negotiated format tag
is not one of the recognised tags always fails with
`NoSupportedBufferFormat`; the bytes are never passed through as a
successful result. -/
theorem C6_theorem (fc : FrameCopy) (h : fc.frame_format.format.isRecognized = false) :
    frameCopyToImage fc = Except.error ConvError.NoSupportedBufferFormat := by
  rcases fc with ⟨⟨fmt, sz, stride⟩, data, t, lr, ps⟩
  cases fmt
  case other code => rfl
  all_goals simp only [Format.isRecognized, Bool.true_eq_false] at h

/-- Claim C6, witness: a concrete frame with unrecognised format tag
(raw code 0) and a valid 4-byte payload is rejected. -/
theorem C6_witness :
    (Format.other 0).isRecognized = false ∧
    frameCopyToImage
      { frame_format :=
          { format := Format.other 0
            size := { width := 1, height := 1 }
            stride := 4 }
        frame_mmap := [1, 2, 3, 4]
        transform := Transform.Normal
        logical_region := LogicalRegion.zero
        physical_size := Size.zero } =
      Except.error ConvError.NoSupportedBufferFormat :=
  ⟨rfl, C6_theorem _ rfl⟩

/-! ## Claim C9 -/

theorem argb8888_replicate (n : Nat) :
    argb8888_to_rgba8 (List.flatten (List.replicate n [0x10, 0x20, 0x30, 0xFF])) =
      List.flatten (List.replicate n [0x30, 0x20, 0x10, 0xFF]) := by
  induction n with
  | zero => rfl
  | succ n ih =>
    simp only [List.replicate_succ, List.flatten_cons, List.cons_append, List.nil_append]
    rw [argb8888_cons4, ih]

theorem flatten_replicate_length (n : Nat) (l : List Nat) :
    (List.flatten (List.replicate n l)).length = n * l.length := by
  induction n with
  | zero => simp
  | succ n ih =>
    simp only [List.replicate_succ, List.flatten_cons, List.length_append, ih, Nat.succ_mul]
    omega

/-- Claim C9: a frame of format tag `Xrgb8888` in which every 4-byte
pixel is `[0x10, 0x20, 0x30, 0xFF]` converts, through the selected
`argb8888_to_rgba8`, to a successful RGBA8 image in which every pixel
is `[0x30, 0x20, 0x10, 0xFF]` — for any width, height and stride
(the scenario of the spec instantiates width 1920, height 1080,
stride 7680). -/
theorem C9_theorem (w h stride : Nat) (t : Transform) (lr : LogicalRegion) (ps : Size) :
    frameCopyToImage
      { frame_format :=
          { format := Format.Xrgb8888
            size := { width := w, height := h }
            stride := stride }
        frame_mmap := List.flatten (List.replicate (w * h) [0x10, 0x20, 0x30, 0xFF])
        transform := t
        logical_region := lr
        physical_size := ps } =
      Except.ok (DynamicImage.rgba8 w h
        (List.flatten (List.replicate (w * h) [0x30, 0x20, 0x10, 0xFF]))) := by
  have hlen : (List.flatten (List.replicate (w * h) ([0x30, 0x20, 0x10, 0xFF] : List Nat))).length
      = w * h * 4 := by
    rw [flatten_replicate_length]
    rfl
  simp [frameCopyToImage, argb8888_replicate, imageBufferFromVec, hlen]

/-! ## Claim C10 -/

theorem formats_prefix_step (s : CaptureFrameState) (e : ScreencopyEvent) :
    List.IsPrefix s.formats (captureFrameEvent s e).formats := by
  cases e with
  | buffer fmt w h st =>
    cases fmt with
    | value f => exact ⟨_, rfl⟩
    | unknown raw => exact ⟨[], List.append_nil _⟩
  | _ => exact ⟨[], List.append_nil _⟩

theorem formats_prefix_run (es : List ScreencopyEvent) (s : CaptureFrameState) :
    List.IsPrefix s.formats (runCaptureFrame s es).formats := by
  induction es generalizing s with
  | nil => exact ⟨[], List.append_nil _⟩
  | cons e es ih =>
    exact (formats_prefix_step s e).trans (ih (captureFrameEvent s e))

/-- Claim C10: the advertised-format candidate list is append-only —
handling a `Buffer` event with a recognised format enum appends exactly
one candidate at the end, every other event (including a `Buffer` event
with an unrecognised format enum) leaves the list unchanged, and over
any event sequence the previous list survives as a prefix, so no event
removes or modifies an existing candidate. -/
theorem C10_theorem (s : CaptureFrameState) (e : ScreencopyEvent) :
    ((captureFrameEvent s e).formats =
      match e with
      | ScreencopyEvent.buffer (WEnum.value f) w h st =>
        s.formats ++ [{ format := f, size := { width := w, height := h }, stride := st }]
      | _ => s.formats) ∧
    ∀ es : List ScreencopyEvent, List.IsPrefix s.formats (runCaptureFrame s es).formats := by
  constructor
  · cases e with
    | buffer fmt w h st => cases fmt <;> rfl
    | _ => rfl
  · intro es
    exact formats_prefix_run es s

/-! ## Claim C8 -/

theorem updateFirstMatching_no_match (oid : Nat) (e : WlOutputEvent) :
    ∀ l : List OutputInfo, (∀ o ∈ l, o.wl_output ≠ oid) → updateFirstMatching oid e l = l := by
  intro l
  induction l with
  | nil => intro _; rfl
  | cons o rest ih =>
    intro h
    unfold updateFirstMatching
    rw [if_neg (h o (by simp)), ih (fun x hx => h x (by simp [hx]))]

/-- Claim C8: a `WlOutput` event whose object matches no registered
output, and a `ZxdgOutputV1` event whose correlation index is out of
range of the registered outputs, are handled by returning normally with
the registry state — every registered output and everything else —
completely unchanged. -/
theorem C8_theorem (s : OutputCaptureState) (oid : Nat) (e : WlOutputEvent)
    (index : Nat) (e2 : ZxdgOutputEvent)
    (h1 : ∀ o ∈ s.outputs, o.wl_output ≠ oid)
    (h2 : s.outputs.length ≤ index) :
    wlOutputEvent s oid e = s ∧ zxdgOutputEvent s index e2 = s := by
  constructor
  · unfold wlOutputEvent
    rw [updateFirstMatching_no_match oid e s.outputs h1]
  · unfold zxdgOutputEvent
    rw [List.get?_eq_none.mpr h2]

/-- Claim C8, witness: one registered output with identity 1; a
`WlOutput` event for unknown object 2 and a geometry event for
out-of-range index 5 both leave the state unchanged. -/
theorem C8_witness :
    wlOutputEvent { outputs := [freshOutputInfo 1] } 2 WlOutputEvent.done =
      { outputs := [freshOutputInfo 1] } ∧
    zxdgOutputEvent { outputs := [freshOutputInfo 1] } 5 ZxdgOutputEvent.done =
      { outputs := [freshOutputInfo 1] } :=
  C8_theorem { outputs := [freshOutputInfo 1] } 2 WlOutputEvent.done 5 ZxdgOutputEvent.done
    (by decide) (by decide)

/-! ## Claim C7 -/

/-- Claim C7: a `wl_output` global advertised at protocol version
below 4 is never added to the output registry — handling it is a
no-op, not a failure — and every output present after any sequence of
registry events either was present initially or entered through a
`wl_output` global advertised at version ≥ 4. -/
theorem C7_theorem :
    (∀ (s : OutputCaptureState) (name v : Nat), v < 4 →
        registryEvent s (RegistryEvent.global name "wl_output" v) = s) ∧
    (∀ (es : List RegistryEvent) (s : OutputCaptureState) (o : OutputInfo),
        o ∈ (runRegistry s es).outputs →
        o ∈ s.outputs ∨ ∃ name v, RegistryEvent.global name "wl_output" v ∈ es ∧
          4 ≤ v ∧ o = freshOutputInfo name) := by
  constructor
  · intro s name v hv
    have hnv : ¬ (v ≥ 4) := by omega
    simp [registryEvent, hnv]
  · intro es
    induction es with
    | nil =>
      intro s o ho
      exact Or.inl ho
    | cons e es ih =>
      intro s o ho
      have hstep : runRegistry s (e :: es) = runRegistry (registryEvent s e) es := rfl
      rw [hstep] at ho
      rcases ih (registryEvent s e) o ho with hmem | ⟨name, v, hin, hv, heq⟩
      · cases e with
        | global gname giface gv =>
          by_cases hif : giface = "wl_output"
          · by_cases hgv : gv ≥ 4
            · subst hif
              simp only [registryEvent, if_pos rfl, if_pos hgv] at hmem
              rcases List.mem_append.mp hmem with hl | hr
              · exact Or.inl hl
              · refine Or.inr ⟨gname, gv, List.mem_cons_self _ _, hgv, ?_⟩
                simpa using hr
            · simp only [registryEvent, if_pos hif, if_neg hgv] at hmem
              exact Or.inl hmem
          · simp only [registryEvent, if_neg hif] at hmem
            exact Or.inl hmem
        | globalRemove gname => exact Or.inl hmem
        | other => exact Or.inl hmem
      · exact Or.inr ⟨name, v, List.mem_cons_of_mem e hin, hv, heq⟩

/-- Claim C7, witness: from the empty registry, the sequence
advertising `wl_output` globals at versions 3 and 4 yields a registry
holding exactly the version-4 output; the version-3 event alone is a
no-op. -/
theorem C7_witness :
    (registryEvent { outputs := [] } (RegistryEvent.global 7 "wl_output" 3) =
      { outputs := [] }) ∧
    ((runRegistry { outputs := [] }
        [RegistryEvent.global 7 "wl_output" 3, RegistryEvent.global 8 "wl_output" 4]).outputs =
      [freshOutputInfo 8] ∧
     (freshOutputInfo 8 ∈ ({ outputs := [] } : OutputCaptureState).outputs ∨
      ∃ name v, RegistryEvent.global name "wl_output" v ∈
          [RegistryEvent.global 7 "wl_output" 3, RegistryEvent.global 8 "wl_output" 4] ∧
        4 ≤ v ∧ freshOutputInfo 8 = freshOutputInfo name)) :=
  ⟨C7_theorem.1 { outputs := [] } 7 3 (by decide),
   by decide,
   C7_theorem.2 [RegistryEvent.global 7 "wl_output" 3, RegistryEvent.global 8 "wl_output" 4]
     { outputs := [] } (freshOutputInfo 8) (by decide)⟩

/-! ## Claim C2 -/

theorem state_unchanged_of_not_terminal (s : CaptureFrameState) (e : ScreencopyEvent)
    (h : e.isTerminal = false) : (captureFrameEvent s e).state = s.state := by
  cases e with
  | buffer fmt w hh st => cases fmt <;> rfl
  | ready => simp [ScreencopyEvent.isTerminal] at h
  | failed => simp [ScreencopyEvent.isTerminal] at h
  | damage => rfl
  | linuxDmabuf => rfl
  | bufferDone => rfl
  | other => rfl

theorem state_unchanged_run (es : List ScreencopyEvent) :
    ∀ s : CaptureFrameState, es.filter ScreencopyEvent.isTerminal = [] →
      (runCaptureFrame s es).state = s.state := by
  induction es with
  | nil => intro s _; rfl
  | cons e es ih =>
    intro s hnil
    by_cases he : e.isTerminal
    · rw [List.filter_cons_of_pos he] at hnil
      exact absurd hnil (List.cons_ne_nil _ _)
    · rw [List.filter_cons_of_neg he] at hnil
      have hstep : runCaptureFrame s (e :: es) = runCaptureFrame (captureFrameEvent s e) es :=
        rfl
      rw [hstep, ih (captureFrameEvent s e) hnil,
        state_unchanged_of_not_terminal s e (Bool.eq_false_iff.mpr he)]

/-- Claim C2, counterexample: the handler sets the state with
`Option::replace`, which overwrites any previous value; delivering
`Ready` and then `Failed` to a fresh session first reaches `Finished`
and then moves to `Failed`, so the state does transition out of a
terminal state. -/
theorem C2_counterexample :
    (runCaptureFrame initialCaptureFrameState [ScreencopyEvent.ready]).state =
      some FrameState.Finished ∧
    (runCaptureFrame initialCaptureFrameState
      [ScreencopyEvent.ready, ScreencopyEvent.failed]).state = some FrameState.Failed := by
  decide

/-- Claim C2 (amended): the capture state always holds the outcome of
the most recent terminal event (`Ready` ↦ `Finished`, `Failed` ↦
`Failed`); provided the delivered event sequence contains at most one
terminal event — which a protocol-conforming compositor guarantees —
the state transitions at most once out of `Pending`, and once terminal
it never changes. A sequence with a second terminal event, however,
overwrites the state. -/
theorem C2_theorem (es₁ es₂ : List ScreencopyEvent) (t : FrameState)
    (hcount : terminalCount (es₁ ++ es₂) ≤ 1)
    (hstate : (runCaptureFrame initialCaptureFrameState es₁).state = some t) :
    (runCaptureFrame initialCaptureFrameState (es₁ ++ es₂)).state = some t := by
  have hrun : runCaptureFrame initialCaptureFrameState (es₁ ++ es₂) =
      runCaptureFrame (runCaptureFrame initialCaptureFrameState es₁) es₂ :=
    List.foldl_append _ _ _ _
  have h1 : ¬ (es₁.filter ScreencopyEvent.isTerminal = []) := by
    intro hnil
    rw [state_unchanged_run es₁ initialCaptureFrameState hnil] at hstate
    simp [initialCaptureFrameState] at hstate
  have h2 : es₂.filter ScreencopyEvent.isTerminal = [] := by
    have hc := hcount
    unfold terminalCount at hc
    rw [List.filter_append, List.length_append] at hc
    have hl1 : 0 < (es₁.filter ScreencopyEvent.isTerminal).length :=
      List.length_pos.mpr h1
    rw [← List.length_eq_zero]
    omega
  rw [hrun, state_unchanged_run es₂ _ h2, hstate]

/-- Claim C2, witness: the amended claim on the concrete sequence
`[Ready] ++ [Damage]`: one terminal event, state `Finished` after the
prefix and still `Finished` at the end. -/
theorem C2_witness :
    terminalCount ([ScreencopyEvent.ready] ++ [ScreencopyEvent.damage]) ≤ 1 ∧
    (runCaptureFrame initialCaptureFrameState [ScreencopyEvent.ready]).state =
      some FrameState.Finished ∧
    (runCaptureFrame initialCaptureFrameState
      ([ScreencopyEvent.ready] ++ [ScreencopyEvent.damage])).state =
      some FrameState.Finished :=
  ⟨by decide, by decide,
   C2_theorem [ScreencopyEvent.ready] [ScreencopyEvent.damage] FrameState.Finished
     (by decide) (by decide)⟩

/-! ## Claim C4 -/

theorem shmOpenLoop_replicate_eexist (n : Nat) :
    shmOpenLoop (List.replicate n OpenRes.eexist) = ShmOutcome.pending := by
  induction n with
  | zero => rfl
  | succ n ih =>
    rw [List.replicate_succ]
    simpa only [shmOpenLoop] using ih

/-- Claim C4, counterexample: the `shm_open` collision/interrupt retry
loop of `create_shm_fd` is not bounded — there is no retry budget `N`
after which a run of consecutive `EEXIST` collisions has stopped
retrying: after any number of collisions the loop is still running. -/
theorem C4_counterexample :
    ¬ ∃ N : Nat, ∀ n : Nat, N ≤ n →
        shmOpenLoop (List.replicate n OpenRes.eexist) ≠ ShmOutcome.pending := by
  rintro ⟨N, hN⟩
  exact hN N (Nat.le_refl N) (shmOpenLoop_replicate_eexist N)

/-- Claim C4 (amended): `create_shm_fd` retries after regenerating the
name when `shm_open` fails with `EEXIST`, retries with the same name
when interrupted (`EINTR`, in both the memfd and the fallback loop),
and returns the OS error on any other failure; the collision/interrupt
retry loop is unbounded — it never exhausts a retry budget, so the
only non-retryable outcomes are OS errors other than
`EEXIST`/`EINTR`. -/
theorem C4_theorem :
    (∀ rest, shmOpenLoop (OpenRes.eexist :: rest) = shmOpenLoop rest) ∧
    (∀ rest, shmOpenLoop (OpenRes.eintr :: rest) = shmOpenLoop rest) ∧
    (∀ e rest, shmOpenLoop (OpenRes.fail e :: rest) = ShmOutcome.osError e) ∧
    (∀ fd rest, shmOpenLoop (OpenRes.ok fd UnlinkRes.ok :: rest) = ShmOutcome.ok fd) ∧
    (∀ rest, memfdLoop (MemfdRes.eintr :: rest) = memfdLoop rest) ∧
    (∀ e rest, memfdLoop (MemfdRes.fail e :: rest) = MemfdPhase.ret (ShmOutcome.osError e)) ∧
    (∀ st rest, create_shm_fd (MemfdRes.enosys :: rest) st = shmOpenLoop st) ∧
    (∀ i rest, shmHandleIndices i (OpenRes.eexist :: rest) = i :: shmHandleIndices (i + 1) rest) ∧
    (∀ i rest, shmHandleIndices i (OpenRes.eintr :: rest) = i :: shmHandleIndices i rest) ∧
    (∀ n, shmOpenLoop (List.replicate n OpenRes.eexist) = ShmOutcome.pending) :=
  ⟨fun _ => rfl, fun _ => rfl, fun _ _ => rfl, fun _ _ => rfl, fun _ => rfl,
   fun _ _ => rfl, fun _ _ => rfl, fun _ _ => rfl, fun _ _ => rfl,
   shmOpenLoop_replicate_eexist⟩

/-! ## Claim C5 -/

theorem and_mask_shiftRight (x m s : Nat) :
    (x &&& (2 ^ m - 1) <<< s) >>> s = x / 2 ^ s % 2 ^ m := by
  apply Nat.eq_of_testBit_eq
  intro j
  rw [← Nat.shiftRight_eq_div_pow]
  simp only [Nat.testBit_shiftRight, Nat.testBit_and, Nat.testBit_mod_two_pow,
    Nat.testBit_shiftLeft, Nat.testBit_two_pow_sub_one]
  have h1 : s ≤ s + j := by omega
  have h2 : s + j - s = j := by omega
  simp [h1, h2, Bool.and_comm]

theorem extract_bits_30_31 (p : Nat) : (p &&& 0xC0000000) >>> 30 = p / 2 ^ 30 % 4 := by
  have hm : (0xC0000000 : Nat) = (2 ^ 2 - 1) <<< 30 := by decide
  rw [hm, and_mask_shiftRight]
  norm_num

theorem extract_bits_20_29 (p : Nat) : (p &&& 0x3FF00000) >>> 20 = p / 2 ^ 20 % 1024 := by
  have hm : (0x3FF00000 : Nat) = (2 ^ 10 - 1) <<< 20 := by decide
  rw [hm, and_mask_shiftRight]
  norm_num

theorem extract_bits_10_19 (p : Nat) : (p &&& 0x000FFC00) >>> 10 = p / 2 ^ 10 % 1024 := by
  have hm : (0x000FFC00 : Nat) = (2 ^ 10 - 1) <<< 10 := by decide
  rw [hm, and_mask_shiftRight]
  norm_num

theorem extract_bits_0_9 (p : Nat) : p &&& 0x000003FF = p % 1024 := by
  have hm : (0x000003FF : Nat) = 2 ^ 10 - 1 := by decide
  rw [hm, Nat.and_pow_two_sub_one_eq_mod]

theorem u16_cast_alpha (x : Nat) : (x % 4) <<< 14 % 65536 = x % 4 * 2 ^ 14 := by
  rw [Nat.shiftLeft_eq]
  apply Nat.mod_eq_of_lt
  have hx : x % 4 ≤ 3 := by omega
  calc x % 4 * 2 ^ 14 ≤ 3 * 2 ^ 14 := Nat.mul_le_mul_right _ hx
  _ < 65536 := by norm_num

theorem u16_cast_color (x : Nat) : (x % 1024) <<< 6 % 65536 = x % 1024 * 2 ^ 6 := by
  rw [Nat.shiftLeft_eq]
  apply Nat.mod_eq_of_lt
  have hx : x % 1024 ≤ 1023 := by omega
  calc x % 1024 * 2 ^ 6 ≤ 1023 * 2 ^ 6 := Nat.mul_le_mul_right _ hx
  _ < 65536 := by norm_num

/-- Claim C5: on any 4-byte little-endian input pixel `p`, the
ABGR2_10_10_10-to-RGBA16 pixel conversion extracts alpha from bits
31–30 (`p / 2^30 % 4`, so alpha ≤ 3), R from bits 9–0, G from bits
19–10 and B from bits 29–20 (each `≤ 1023`), widens alpha by `2^14`
and each colour by `2^6` exactly (the `u16` cast truncates nothing),
and emits the four values in (A, R, G, B) order; the buffer-level
conversion applies this to every complete 4-byte pixel in sequence. -/
theorem C5_theorem (b0 b1 b2 b3 : Nat) :
    (pixel_abgr2101010_to_rgba16 (b0, b1, b2, b3) =
      [u32_from_le_bytes (b0, b1, b2, b3) / 2 ^ 30 % 4 * 2 ^ 14,
       u32_from_le_bytes (b0, b1, b2, b3) % 1024 * 2 ^ 6,
       u32_from_le_bytes (b0, b1, b2, b3) / 2 ^ 10 % 1024 * 2 ^ 6,
       u32_from_le_bytes (b0, b1, b2, b3) / 2 ^ 20 % 1024 * 2 ^ 6]) ∧
    u32_from_le_bytes (b0, b1, b2, b3) / 2 ^ 30 % 4 ≤ 3 ∧
    u32_from_le_bytes (b0, b1, b2, b3) % 1024 ≤ 1023 ∧
    u32_from_le_bytes (b0, b1, b2, b3) / 2 ^ 10 % 1024 ≤ 1023 ∧
    u32_from_le_bytes (b0, b1, b2, b3) / 2 ^ 20 % 1024 ≤ 1023 ∧
    (∀ rest, abgr2101010_to_rgba16 (b0 :: b1 :: b2 :: b3 :: rest) =
      pixel_abgr2101010_to_rgba16 (b0, b1, b2, b3) ++ abgr2101010_to_rgba16 rest) := by
  refine ⟨?_, by omega, by omega, by omega, by omega, fun rest => abgr2101010_cons4 _ _ _ _ rest⟩
  simp only [pixel_abgr2101010_to_rgba16]
  generalize u32_from_le_bytes (b0, b1, b2, b3) = p
  rw [extract_bits_30_31, extract_bits_20_29, extract_bits_10_19, extract_bits_0_9]
  rw [u16_cast_alpha]
  rw [u16_cast_color]
  rw [u16_cast_color]
  rw [u16_cast_color]

end Wayshot
